import Mathlib

/-!
Verification development for the breakpad `SourceLineResolver`
(`src/processor/source_line_resolver.cc`).

The C++ code is shallowly embedded: C strings become `List Char`, the
`strtok`-based tokenizer becomes an explicit state-passing loop, machine
integers become `Nat`/`Int` with explicit `% 2 ^ 64` (resp. `% 2 ^ 32`)
where the C types wrap, and fallible parsing functions return `Option`.
A symbol file is modelled as the list of lines that successive `fgets`
calls would deliver (each including its trailing newline); `fopen`
failure is modelled by passing `none` for the file.

`RangeMap`, `ContainedRangeMap`, `StackFrameInfo` and `StackFrame` live
in headers that are not part of the provided sources; they are modelled
from the spec (sections 3, 4.1 and 4.2), as marked on each definition.
The `linked_ptr` sharing between `cur_func` and the function range map is
modelled with an arena: every parsed `FUNC` object lives in `funcs`, the
range map stores arena indices, and the current function is an arena
index, so mutation of the current function is visible through the map
exactly when the store succeeded.
-/

namespace GoogleAirbag

/-- C strings (the parser works on `char *` buffers). -/
abbrev Str := List Char

/-! ## Tokenizer: `SourceLineResolver::Module::Tokenize` -/

/-- The delimiter set `" \r\n"` used by the token-splitting `strtok` calls. -/
def wsDelims : List Char := [' ', '\r', '\n']

/-- The delimiter set `"\r\n"` used by the final rest-of-line `strtok` call. -/
def nlDelims : List Char := ['\r', '\n']

/-- One `strtok` step: skip leading delimiters; if nothing remains, return
`none` (and an exhausted saved pointer); otherwise return the maximal run of
non-delimiters together with the saved pointer, which sits one character past
the delimiter that terminated the token (or at the end of the string). -/
def strtokStep (delims : List Char) (s : Str) : Option Str × Str :=
  let s1 := s.dropWhile (fun c => delims.contains c)
  match s1 with
  | [] => (none, [])
  | _ :: _ =>
    let tok := s1.takeWhile (fun c => !delims.contains c)
    let rest := s1.dropWhile (fun c => !delims.contains c)
    (some tok, rest.drop 1)

/-- The `while (token && --remaining > 0)` loop of `Tokenize`.  `remaining`
is the C `int` counter (decremented only when `token` is non-null, because
`&&` short-circuits); when it reaches `1` after a push the loop keeps the
already-fetched token, re-tests the condition, decrements to `0` and exits.
The `fuel` argument only forces structural recursion; it is always chosen
large enough that the fuel-exhausted branch is unreachable. -/
def tokenizeLoop : Nat → Int → Option Str → Str → List Str → List Str × Str × Int
  | _, remaining, none, rest, acc => (acc.reverse, rest, remaining)
  | 0, remaining, some _, rest, acc => (acc.reverse, rest, remaining)
  | fuel + 1, remaining, some t, rest, acc =>
    if remaining - 1 > 0 then
      if remaining - 1 > 1 then
        match strtokStep wsDelims rest with
        | (tok2, rest2) => tokenizeLoop fuel (remaining - 1) tok2 rest2 (t :: acc)
      else ((t :: acc).reverse, rest, remaining - 2)
    else (acc.reverse, rest, remaining - 1)

/-- `SourceLineResolver::Module::Tokenize`: split `line` into at most
`max_tokens` tokens on runs of space/CR/LF; once the counter reaches zero the
remainder of the line up to a CR/LF becomes one final verbatim token.  The
Bool is the C `tokens->size() == max_tokens` result. -/
def Tokenize (line : Str) (max_tokens : Int) : List Str × Bool :=
  let first := strtokStep wsDelims line
  let r := tokenizeLoop (max_tokens.toNat + 1) max_tokens first.1 first.2 []
  let toks :=
    if r.2.2 = 0 then
      match (strtokStep nlDelims r.2.1).1 with
      | some t => r.1 ++ [t]
      | none => r.1
    else r.1
  (toks, decide ((toks.length : Int) = max_tokens))

/-! ## C number parsing: `atoi`, `strtoull`, `strtoul`, `strtol` (base 16) -/

/-- The `isspace` character class consulted by the C number parsers. -/
def isSpaceChar (c : Char) : Bool :=
  c = ' ' || c = '\t' || c = '\n' || c = '\x0b' || c = '\x0c' || c = '\r'

/-- Decimal digit test. -/
def isDigitChar (c : Char) : Bool := 48 ≤ c.toNat && c.toNat ≤ 57

/-- Value of the longest leading run of decimal digits (0 when there is none,
as `atoi` returns 0 on no conversion). -/
def decDigitsVal (s : Str) : Int :=
  (s.takeWhile isDigitChar).foldl (fun a c => a * 10 + ((c.toNat : Int) - 48)) 0

/-- C `atoi`: optional whitespace, optional sign, decimal digits. -/
def atoi (s : Str) : Int :=
  match s.dropWhile isSpaceChar with
  | '-' :: r => - decDigitsVal r
  | '+' :: r => decDigitsVal r
  | r => decDigitsVal r

/-- Value of a hexadecimal digit, if the character is one. -/
def hexDigitVal (c : Char) : Option Nat :=
  if 48 ≤ c.toNat ∧ c.toNat ≤ 57 then some (c.toNat - 48)
  else if 97 ≤ c.toNat ∧ c.toNat ≤ 102 then some (c.toNat - 87)
  else if 65 ≤ c.toNat ∧ c.toNat ≤ 70 then some (c.toNat - 55)
  else none

/-- Hexadecimal digit test. -/
def isHexDigitChar (c : Char) : Bool := (hexDigitVal c).isSome

/-- Value of the longest leading run of hex digits (0 when there is none). -/
def hexDigitsVal (s : Str) : Nat :=
  (s.takeWhile isHexDigitChar).foldl (fun a c => a * 16 + (hexDigitVal c).getD 0) 0

/-- Digits of a base-16 `strtoX` subject sequence after the optional sign:
an optional `0x`/`0X` prefix followed by hex digits. -/
def hexBodyVal (s : Str) : Nat :=
  match s with
  | '0' :: 'x' :: r => hexDigitsVal r
  | '0' :: 'X' :: r => hexDigitsVal r
  | r => hexDigitsVal r

/-- Signed mathematical value parsed by the base-16 `strtoX` family:
optional whitespace, optional sign, optional `0x` prefix, hex digits. -/
def parseHexSigned (s : Str) : Int :=
  match s.dropWhile isSpaceChar with
  | '-' :: r => - (hexBodyVal r : Int)
  | '+' :: r => (hexBodyVal r : Int)
  | r => (hexBodyVal r : Int)

/-- `strtoull(s, NULL, 16)`: the parsed value reduced into `u_int64_t`
(a leading minus sign wraps modulo `2 ^ 64`). -/
def strtoull16 (s : Str) : Nat := ((parseHexSigned s).emod (2 ^ 64)).toNat

/-- `strtoul(s, NULL, 16)`: the parsed value reduced into `u_int32_t`. -/
def strtoul16 (s : Str) : Nat := ((parseHexSigned s).emod (2 ^ 32)).toNat

/-- `strtol(s, NULL, 16)` as used for the STACK record type.  `long`
overflow clamping is not modelled: the only consumer compares the result
with `0` and `4`, and clamping preserves both comparisons. -/
def strtol16 (s : Str) : Int := parseHexSigned s

/-! ## Range maps

`processor/range_map-inl.h` and `processor/contained_range_map-inl.h` are
not among the provided sources, so these two containers are modelled from
the spec. -/

/-- A stored interval `[base, base+size)` with its value. -/
structure RMEntry (α : Type) where
  base : Nat
  size : Nat
  val : α
deriving DecidableEq

/-- Modelled from the spec: section 4.1's Range Map is a set of disjoint
half-open intervals, represented here as the list of successfully stored
entries. -/
abbrev RangeMap (α : Type) := List (RMEntry α)

/-- Whether `[b, b+s)` and `[b2, b2+s2)` intersect. -/
def rmOverlaps (b s b2 s2 : Nat) : Bool := decide (b < b2 + s2 ∧ b2 < b + s)

/-- Modelled from the spec: `RangeMap::StoreRange` succeeds and inserts iff
no stored interval overlaps the new one; on any overlap it fails and leaves
the map unchanged. -/
def rmStore {α : Type} (m : RangeMap α) (b s : Nat) (v : α) : Bool × RangeMap α :=
  if m.any (fun e => rmOverlaps b s e.base e.size) then (false, m)
  else (true, ⟨b, s, v⟩ :: m)

/-- Modelled from the spec: `RangeMap::RetrieveRange` returns the value whose
interval contains the address under half-open semantics (stored intervals are
pairwise disjoint, so at most one entry matches). -/
def rmRetrieve {α : Type} (m : RangeMap α) (a : Nat) : Option α :=
  match m.find? (fun e => decide (e.base ≤ a ∧ a < e.base + e.size)) with
  | some e => some e.val
  | none => none

/-- Whether `[b, b+s)` is fully contained in `[b2, b2+s2)`. -/
def rmContained (b s b2 s2 : Nat) : Bool := decide (b2 ≤ b ∧ b + s ≤ b2 + s2)

/-- Modelled from the spec: section 4.2's Contained Range Map keeps intervals
that are pairwise disjoint or properly nested; represented as the list of
successfully stored entries. -/
abbrev CRMap (α : Type) := List (RMEntry α)

/-- Modelled from the spec: `ContainedRangeMap::StoreRange` fails (without
mutation) iff the new interval partially overlaps some stored interval,
i.e. intersects it while neither side contains the other. -/
def crmStore {α : Type} (m : CRMap α) (b s : Nat) (v : α) : Bool × CRMap α :=
  if m.any (fun e =>
      rmOverlaps b s e.base e.size &&
      !rmContained b s e.base e.size &&
      !rmContained e.base e.size b s) then (false, m)
  else (true, ⟨b, s, v⟩ :: m)

/-- Modelled from the spec: `ContainedRangeMap::RetrieveRange` returns the
innermost (deepest, hence smallest) stored interval containing the address. -/
def crmRetrieve {α : Type} (m : CRMap α) (a : Nat) : Option α :=
  let hits := m.filter (fun e => decide (e.base ≤ a ∧ a < e.base + e.size))
  let best := hits.foldl
    (fun best e =>
      match best with
      | none => some e
      | some e2 => if e.size < e2.size then some e else some e2) none
  best.map (fun e => e.val)

/-! ## Data model -/

/-- `SourceLineResolver::Line`: one line record. -/
structure Line where
  address : Nat
  size : Nat
  source_file_id : Int
  line : Int
deriving DecidableEq

/-- `SourceLineResolver::Function`: a function with its own line range map. -/
structure Function where
  name : Str
  address : Nat
  size : Nat
  lines : RangeMap Line
deriving DecidableEq

/-- Modelled from the spec: `StackFrameInfo` (from
`processor/stack_frame_info.h`, not among the provided sources) as described
in spec section 3; the `valid` flag is represented by `Option` at use sites
(`some` = a record was retrieved and the info is valid). -/
structure StackFrameInfo where
  prolog_size : Nat
  epilog_size : Nat
  parameter_size : Nat
  saved_register_size : Nat
  local_size : Nat
  max_stack_size : Nat
  unwind_program : Str
deriving DecidableEq

/-- Modelled from the spec: `StackFrame` (from `google/stack_frame.h`, not
among the provided sources) restricted to the fields spec section 3 names:
inputs `module_name`, `module_base`, `instruction` and outputs
`function_name`, `source_file_name`, `source_line`.  The two address fields
are `u_int64_t` values, kept below `2 ^ 64` by hypothesis where it matters. -/
structure StackFrame where
  module_name : Str
  module_base : Nat
  instruction : Nat
  function_name : Str
  source_file_name : Str
  source_line : Int
deriving DecidableEq

/-- The `StackInfoTypes` enum: `STACK_INFO_FPO`. -/
def STACK_INFO_FPO : Nat := 0

/-- The `StackInfoTypes` enum: `STACK_INFO_STANDARD`. -/
def STACK_INFO_STANDARD : Nat := 3

/-- The `StackInfoTypes` enum: `STACK_INFO_FRAME_DATA`. -/
def STACK_INFO_FRAME_DATA : Nat := 4

/-- The `StackInfoTypes` enum: `STACK_INFO_LAST`. -/
def STACK_INFO_LAST : Nat := 5

/-- `SourceLineResolver::Module`'s data: the file table, the function arena
together with the index-valued function range map (see the header comment on
`linked_ptr` sharing), and one contained range map per stack-info type. -/
structure ModuleData where
  name : Str
  files : List (Int × Str)
  funcs : List Function
  functions : RangeMap Nat
  stackInfo : List (CRMap StackFrameInfo)
deriving DecidableEq

/-- A fresh module with the given name and empty tables. -/
def emptyModule (name : Str) : ModuleData :=
  { name := name, files := [], funcs := [], functions := [],
    stackInfo := [[], [], [], [], []] }

/-- Lookup in the `hash_map<int, string>` file table (keys are unique because
insertion refuses duplicates, so first match is the match). -/
def lookupFile (files : List (Int × Str)) (k : Int) : Option Str :=
  match files.find? (fun p => decide (p.1 = k)) with
  | some p => some p.2
  | none => none

/-- `hash_map::insert`: inserts only when the key is absent; a duplicate key
never overwrites the stored value. -/
def filesInsert (files : List (Int × Str)) (k : Int) (v : Str) : List (Int × Str) :=
  match lookupFile files k with
  | some _ => files
  | none => (k, v) :: files

/-- Update the element at an index of a list in place (no-op out of bounds;
in the parser the index is always in bounds). -/
def updateAt {α : Type} : List α → Nat → (α → α) → List α
  | [], _, _ => []
  | x :: xs, 0, g => g x :: xs
  | x :: xs, Nat.succ n, g => x :: updateAt xs n g

/-! ## Parsing the four record kinds -/

/-- `SourceLineResolver::Module::ParseFile`: `FILE <id> <filename>`.  Skips
the 5-character prefix, tokenizes into 2 tokens, requires a non-negative
`atoi` id, and inserts (without overwriting) into the file table.  Any
failure silently leaves the module unchanged. -/
def ParseFile (m : ModuleData) (file_line : Str) : ModuleData :=
  let r := Tokenize (file_line.drop 5) 2
  if r.2 = false then m
  else
    let index := atoi (r.1.getD 0 [])
    if index < 0 then m
    else { m with files := filesInsert m.files index (r.1.getD 1 []) }

/-- `SourceLineResolver::Module::ParseFunction`: `FUNC <address> <size>
<name>`.  Skips the 5-character prefix; fails only when fewer than 3 tokens
are present. -/
def ParseFunction (function_line : Str) : Option Function :=
  let r := Tokenize (function_line.drop 5) 3
  if r.2 = false then none
  else some { name := r.1.getD 2 [],
              address := strtoull16 (r.1.getD 0 []),
              size := strtoull16 (r.1.getD 1 []),
              lines := [] }

/-- `SourceLineResolver::Module::ParseLine`: `<address> <size> <line>
<file_id>`.  Fails when fewer than 4 tokens are present or the line number
is non-positive. -/
def ParseLine (line_line : Str) : Option Line :=
  let r := Tokenize line_line 4
  if r.2 = false then none
  else
    let line_number := atoi (r.1.getD 2 [])
    if line_number ≤ 0 then none
    else some { address := strtoull16 (r.1.getD 0 []),
                size := strtoull16 (r.1.getD 1 []),
                source_file_id := atoi (r.1.getD 3 []),
                line := line_number }

/-- The `StackFrameInfo` value the `ParseStackInfo` constructor call builds
from tokens 4..10 of a `STACK WIN` record. -/
def stackInfoRecord (toks : List Str) : StackFrameInfo :=
  { prolog_size := strtoul16 (toks.getD 4 []),
    epilog_size := strtoul16 (toks.getD 5 []),
    parameter_size := strtoul16 (toks.getD 6 []),
    saved_register_size := strtoul16 (toks.getD 7 []),
    local_size := strtoul16 (toks.getD 8 []),
    max_stack_size := strtoul16 (toks.getD 9 []),
    unwind_program := toks.getD 10 [] }

/-- `SourceLineResolver::Module::ParseStackInfo`: `STACK WIN <type> <rva>
<code_size> ... <program_string>`.  Skips the 6-character prefix, requires
11 tokens, platform `WIN` and a type index in `[0, STACK_INFO_LAST - 1]`;
then stores into the type's contained range map, deliberately ignoring the
store's success (an overlap conflict drops the record and returns true). -/
def ParseStackInfo (m : ModuleData) (stack_info_line : Str) : Option ModuleData :=
  let r := Tokenize (stack_info_line.drop 6) 11
  if r.2 = false then none
  else if r.1.getD 0 [] ≠ ("WIN").toList then none
  else
    let type := strtol16 (r.1.getD 1 [])
    if type < 0 ∨ type > (STACK_INFO_LAST : Int) - 1 then none
    else
      let rva := strtoull16 (r.1.getD 2 [])
      let code_size := strtoull16 (r.1.getD 3 [])
      let idx := type.toNat
      let updated := (crmStore (m.stackInfo.getD idx []) rva code_size
        (stackInfoRecord r.1)).2
      some { m with stackInfo := m.stackInfo.set idx updated }

/-! ## The load loop: `SourceLineResolver::Module::LoadMap` -/

/-- Parser state inside `LoadMap`'s read loop: the module being built and
`cur_func` (an arena index into `mod.funcs`, or `none`). -/
structure LoadState where
  mod : ModuleData
  cur : Option Nat
deriving DecidableEq

/-- One iteration of `LoadMap`'s read loop on one `fgets` buffer: classify
by leading token (`FILE `, `STACK `, `FUNC `, else line record) and
dispatch; `none` models the loop's `return false` aborts.  A `FUNC` record
becomes the current function whether or not its range store succeeds; a
line record is attached to the current function object (in the arena)
whether or not that function is indexed. -/
def processLine (s : LoadState) (buffer : Str) : Option LoadState :=
  if buffer.take 5 = ("FILE ").toList then
    some { s with mod := ParseFile s.mod buffer }
  else if buffer.take 6 = ("STACK ").toList then
    match ParseStackInfo s.mod buffer with
    | none => none
    | some m2 => some { s with mod := m2 }
  else if buffer.take 5 = ("FUNC ").toList then
    match ParseFunction buffer with
    | none => none
    | some f =>
      let fid := s.mod.funcs.length
      some { mod := { s.mod with
                      funcs := s.mod.funcs ++ [f],
                      functions := (rmStore s.mod.functions f.address f.size fid).2 },
             cur := some fid }
  else
    match s.cur with
    | none => none
    | some fid =>
      match ParseLine buffer with
      | none => none
      | some l =>
        some { s with mod := { s.mod with
          funcs := updateAt s.mod.funcs fid
            (fun f => { f with lines := (rmStore f.lines l.address l.size l).2 }) } }

/-- The `while (fgets(...))` loop: process each buffer in order, aborting the
whole load on the first failing record. -/
def runLines (s : LoadState) : List Str → Option LoadState
  | [] => some s
  | b :: bs =>
    match processLine s b with
    | none => none
    | some s2 => runLines s2 bs

/-- `SourceLineResolver::Module::LoadMap`.  The input is `none` when `fopen`
fails, otherwise the list of `fgets` buffers.  The second component records
whether the `FILE *` handle is released before returning: `fclose` is called
only on the success path after the loop; the in-loop `return false` aborts
leave the handle open (and on `fopen` failure there is no handle to release,
so the component is vacuously `true`). -/
def LoadMap (name : Str) (file : Option (List Str)) : Option ModuleData × Bool :=
  match file with
  | none => (none, true)
  | some ls =>
    match runLines { mod := emptyModule name, cur := none } ls with
    | none => (none, false)
    | some s => (some s.mod, true)

/-! ## Lookup: `SourceLineResolver::Module::LookupAddress` -/

/-- The contained range map at a `StackInfoTypes` index. -/
def stackInfoAt (m : ModuleData) (i : Nat) : CRMap StackFrameInfo :=
  m.stackInfo.getD i []

/-- `SourceLineResolver::Module::LookupAddress`.  `wantInfo` models whether
the `frame_info` out-pointer is non-null; the returned `Option` is its final
validity/content.  The stack-info probe runs first, before any early return;
then the function and line lookups fill the frame's output fields. -/
def LookupAddress (m : ModuleData) (address : Nat) (frame : StackFrame)
    (wantInfo : Bool) : StackFrame × Option StackFrameInfo :=
  let finfo : Option StackFrameInfo :=
    if wantInfo then
      match crmRetrieve (stackInfoAt m STACK_INFO_FRAME_DATA) address with
      | some v => some v
      | none =>
        match crmRetrieve (stackInfoAt m STACK_INFO_FPO) address with
        | some v => some v
        | none => crmRetrieve (stackInfoAt m STACK_INFO_STANDARD) address
    else none
  match rmRetrieve m.functions address with
  | none => (frame, finfo)
  | some fid =>
    match m.funcs.get? fid with
    | none => (frame, finfo)
    | some f =>
      let frame1 := { frame with function_name := f.name }
      match rmRetrieve f.lines address with
      | none => (frame1, finfo)
      | some l =>
        let frame2 :=
          match lookupFile m.files l.source_file_id with
          | some nm => { frame1 with source_file_name := nm }
          | none => frame1
        ({ frame2 with source_line := l.line }, finfo)

/-! ## The resolver: `SourceLineResolver` -/

/-- The resolver's `ModuleMap`, keyed by module name (keys unique). -/
abbrev Resolver := List (Str × ModuleData)

/-- `modules_->find(name)`. -/
def lookupModule (r : Resolver) (name : Str) : Option ModuleData :=
  match r.find? (fun p => decide (p.1 = name)) with
  | some p => some p.2
  | none => none

/-- `SourceLineResolver::HasModule`. -/
def HasModule (r : Resolver) (name : Str) : Bool := (lookupModule r name).isSome

/-- `SourceLineResolver::LoadModule`: refuse a duplicate name; otherwise load
the map; discard the module on parse failure; register it on success. -/
def LoadModule (r : Resolver) (module_name : Str) (file : Option (List Str)) :
    Bool × Resolver :=
  if (lookupModule r module_name).isSome then (false, r)
  else
    match (LoadMap module_name file).1 with
    | none => (false, r)
    | some m => (true, r ++ [(module_name, m)])

/-- Unsigned 64-bit subtraction: `frame->instruction - frame->module_base`
on `u_int64_t` operands wraps modulo `2 ^ 64`. -/
def u64sub (a b : Nat) : Nat := (a + (2 ^ 64 - b % 2 ^ 64)) % 2 ^ 64

/-- `SourceLineResolver::FillSourceLineInfo`: find the frame's module; if
absent do nothing, otherwise look up the module-relative (wrapped) address. -/
def FillSourceLineInfo (r : Resolver) (frame : StackFrame) (wantInfo : Bool) :
    StackFrame × Option StackFrameInfo :=
  match lookupModule r frame.module_name with
  | none => (frame, none)
  | some m => LookupAddress m (u64sub frame.instruction frame.module_base) frame wantInfo

/-! ## General helper lemmas -/

/-- Taking while a predicate holds walks past a block that satisfies it. -/
theorem takeWhile_append_all {α : Type} (p : α → Bool) (t rest : List α)
    (h : ∀ c ∈ t, p c = true) :
    List.takeWhile p (t ++ rest) = t ++ List.takeWhile p rest := by
  induction t with
  | nil => simp
  | cons c t ih =>
    have hc : p c = true := h c (List.mem_cons_self c t)
    simp only [List.cons_append, List.takeWhile_cons, hc, if_true]
    rw [ih (fun x hx => h x (List.mem_cons_of_mem c hx))]

/-- Dropping while a predicate holds walks past a block that satisfies it. -/
theorem dropWhile_append_all {α : Type} (p : α → Bool) (t rest : List α)
    (h : ∀ c ∈ t, p c = true) :
    List.dropWhile p (t ++ rest) = List.dropWhile p rest := by
  induction t with
  | nil => simp
  | cons c t ih =>
    have hc : p c = true := h c (List.mem_cons_self c t)
    simp only [List.cons_append, List.dropWhile_cons, hc, if_true]
    exact ih (fun x hx => h x (List.mem_cons_of_mem c hx))

/-- A `strtok " \r\n"` step on a non-empty delimiter-free token followed by a
single space returns that token and saves the pointer right after the space. -/
theorem strtok_plain (t tail : Str) (h1 : t ≠ [])
    (h2 : ∀ c ∈ t, wsDelims.contains c = false) :
    strtokStep wsDelims (t ++ ' ' :: tail) = (some t, tail) := by
  obtain ⟨c, t2, rfl⟩ := List.exists_cons_of_ne_nil h1
  have hc : wsDelims.contains c = false := h2 c (List.mem_cons_self c t2)
  have hall : ∀ x ∈ c :: t2, (fun y => !wsDelims.contains y) x = true := by
    intro x hx
    simp only [h2 x hx, Bool.not_false]
  have hA : List.dropWhile (fun y => wsDelims.contains y) (c :: (t2 ++ ' ' :: tail))
      = c :: (t2 ++ ' ' :: tail) := by
    simp only [List.dropWhile_cons, hc, Bool.false_eq_true, if_false]
  have hB : List.takeWhile (fun y => !wsDelims.contains y) (c :: (t2 ++ ' ' :: tail))
      = c :: t2 := by
    have h3 := takeWhile_append_all (fun y => !wsDelims.contains y) (c :: t2)
      (' ' :: tail) hall
    simp only [List.cons_append] at h3
    rw [h3]
    simp [List.takeWhile_cons, wsDelims]
  have hC : List.dropWhile (fun y => !wsDelims.contains y) (c :: (t2 ++ ' ' :: tail))
      = ' ' :: tail := by
    have h3 := dropWhile_append_all (fun y => !wsDelims.contains y) (c :: t2)
      (' ' :: tail) hall
    simp only [List.cons_append] at h3
    rw [h3]
    simp [List.dropWhile_cons, wsDelims]
  simp only [List.cons_append, strtokStep, hA, hB, hC]
  rfl

/-- The final `strtok "\r\n"` step on a CR/LF-free non-empty remainder that
ends in a newline returns the remainder verbatim. -/
theorem strtok_nl (rest : Str) (h1 : rest ≠ [])
    (h2 : ∀ c ∈ rest, nlDelims.contains c = false) :
    strtokStep nlDelims (rest ++ [ '\n' ]) = (some rest, []) := by
  obtain ⟨c, r2, rfl⟩ := List.exists_cons_of_ne_nil h1
  have hc : nlDelims.contains c = false := h2 c (List.mem_cons_self c r2)
  have hall : ∀ x ∈ c :: r2, (fun y => !nlDelims.contains y) x = true := by
    intro x hx
    simp only [h2 x hx, Bool.not_false]
  have hA : List.dropWhile (fun y => nlDelims.contains y) (c :: (r2 ++ [ '\n' ]))
      = c :: (r2 ++ [ '\n' ]) := by
    simp only [List.dropWhile_cons, hc, Bool.false_eq_true, if_false]
  have hB : List.takeWhile (fun y => !nlDelims.contains y) (c :: (r2 ++ [ '\n' ]))
      = c :: r2 := by
    have h3 := takeWhile_append_all (fun y => !nlDelims.contains y) (c :: r2)
      [ '\n' ] hall
    simp only [List.cons_append] at h3
    rw [h3]
    simp [List.takeWhile_cons, nlDelims]
  have hC : List.dropWhile (fun y => !nlDelims.contains y) (c :: (r2 ++ [ '\n' ]))
      = [ '\n' ] := by
    have h3 := dropWhile_append_all (fun y => !nlDelims.contains y) (c :: r2)
      [ '\n' ] hall
    simp only [List.cons_append] at h3
    rw [h3]
    simp [List.dropWhile_cons, nlDelims]
  simp only [List.cons_append, strtokStep, hA, hB, hC]
  rfl

/-- A space-joined token list, each token followed by one space. -/
def joinTokens : List Str → Str
  | [] => []
  | t :: ts => t ++ ' ' :: joinTokens ts

/-- Running the tokenizer loop with counter `k + 2` over `k` further
delimiter-free tokens pushes the fetched token and all `k` others, exits with
counter `0`, and leaves the trailing text as the saved pointer. -/
theorem tokenizeLoop_run (ts : List Str) :
    ∀ (fuel : Nat) (t : Str) (trail : Str) (acc : List Str),
    ts.length < fuel →
    (∀ u ∈ ts, u ≠ [] ∧ ∀ c ∈ u, wsDelims.contains c = false) →
    tokenizeLoop fuel ((ts.length : Int) + 2) (some t) (joinTokens ts ++ trail) acc
      = (acc.reverse ++ t :: ts, trail, 0) := by
  induction ts with
  | nil =>
    intro fuel t trail acc hf _
    obtain ⟨f, rfl⟩ : ∃ f, fuel = f + 1 := ⟨fuel - 1, by omega⟩
    simp only [List.length_nil, Nat.cast_zero, zero_add, joinTokens, List.nil_append,
      tokenizeLoop]
    norm_num
  | cons u ts ih =>
    intro fuel t trail acc hf hgood
    obtain ⟨f, rfl⟩ : ∃ f, fuel = f + 1 := ⟨fuel - 1, by omega⟩
    have hu := hgood u (List.mem_cons_self u ts)
    simp only [tokenizeLoop]
    rw [if_pos (by simp only [List.length_cons]; push_cast; omega),
        if_pos (by simp only [List.length_cons]; push_cast; omega)]
    have hjoin : joinTokens (u :: ts) ++ trail = u ++ ' ' :: (joinTokens ts ++ trail) := by
      simp [joinTokens]
    rw [hjoin, strtok_plain u _ hu.1 hu.2]
    have harith : ((u :: ts).length : Int) + 2 - 1 = (ts.length : Int) + 2 := by
      simp only [List.length_cons]
      push_cast
      omega
    rw [harith, ih f u trail (t :: acc) (by simp only [List.length_cons] at hf; omega)
      (fun x hx => hgood x (List.mem_cons_of_mem u hx))]
    simp

/-- Tokenizing a line made of delimiter-free tokens, single separating
spaces, a non-empty CR/LF-free remainder and a trailing newline yields the
tokens followed by the remainder verbatim, and reports the exact count. -/
theorem tokenize_join (ts : List Str) (rest : Str)
    (hts : ts ≠ [])
    (hgood : ∀ u ∈ ts, u ≠ [] ∧ ∀ c ∈ u, wsDelims.contains c = false)
    (hr1 : rest ≠ [])
    (hr2 : ∀ c ∈ rest, nlDelims.contains c = false) :
    Tokenize (joinTokens ts ++ rest ++ [ '\n' ]) ((ts.length : Int) + 1)
      = (ts ++ [rest], true) := by
  obtain ⟨t1, ts1, rfl⟩ := List.exists_cons_of_ne_nil hts
  have ht1 := hgood t1 (List.mem_cons_self t1 ts1)
  have h1 : joinTokens (t1 :: ts1) ++ rest ++ [ '\n' ]
      = t1 ++ ' ' :: (joinTokens ts1 ++ (rest ++ [ '\n' ])) := by
    simp [joinTokens]
  have hrem : ((t1 :: ts1).length : Int) + 1 = (ts1.length : Int) + 2 := by
    simp only [List.length_cons]
    push_cast
    omega
  have hfuel : ts1.length < ((ts1.length : Int) + 2).toNat + 1 := by
    omega
  unfold Tokenize
  rw [h1, strtok_plain t1 _ ht1.1 ht1.2]
  simp only
  rw [hrem, tokenizeLoop_run ts1 _ t1 (rest ++ [ '\n' ]) [] hfuel
    (fun x hx => hgood x (List.mem_cons_of_mem t1 hx))]
  rw [strtok_nl rest hr1 hr2]
  simp only [List.reverse_nil, List.nil_append, if_true, Prod.mk.injEq, true_and,
    decide_eq_true_eq, List.length_append, List.length_cons, List.length_nil]
  push_cast
  omega

/-- When a `strtok` step finds no token, its saved pointer is exhausted. -/
theorem strtokStep_none (delims : List Char) (s : Str)
    (h : (strtokStep delims s).1 = none) : (strtokStep delims s).2 = [] := by
  unfold strtokStep at *
  cases hd : s.dropWhile (fun c => delims.contains c) with
  | nil => rfl
  | cons c r =>
    rw [hd] at h
    simp at h

/-- Output-size invariant of the tokenizer loop: with adequate fuel, the
token list grows to at most `remaining - 1` entries beyond the accumulator,
and an exit with counter `0` leaves room for exactly one final token within
`remaining`. -/
theorem tokenizeLoop_length :
    ∀ (fuel : Nat) (remaining : Int) (tok : Option Str) (rest : Str) (acc : List Str),
    remaining.toNat < fuel →
    (tok = none → 0 < remaining) →
    ((tokenizeLoop fuel remaining tok rest acc).1.length : Int)
        ≤ (acc.length : Int) + ((remaining - 1).toNat : Int) ∧
    ((tokenizeLoop fuel remaining tok rest acc).2.2 = 0 →
      ((tokenizeLoop fuel remaining tok rest acc).1.length : Int) + 1
        ≤ (acc.length : Int) + (remaining.toNat : Int)) := by
  intro fuel
  induction fuel with
  | zero =>
    intro remaining tok rest acc hf _
    exact absurd hf (Nat.not_lt_zero _)
  | succ f ih =>
    intro remaining tok rest acc hf htok
    match tok with
    | none =>
      refine ⟨?_, ?_⟩
      · simp only [tokenizeLoop, List.length_reverse]
        omega
      · intro h0
        simp only [tokenizeLoop] at h0
        have := htok rfl
        omega
    | some t =>
      simp only [tokenizeLoop]
      by_cases h1 : remaining - 1 > 0
      · by_cases h2 : remaining - 1 > 1
        · rw [if_pos h1, if_pos h2]
          rcases hst : strtokStep wsDelims rest with ⟨tok2, rest2⟩
          dsimp only
          have hih := ih (remaining - 1) tok2 rest2 (t :: acc)
            (by omega) (fun _ => by omega)
          simp only [List.length_cons] at hih
          refine ⟨by omega, fun h0 => by omega⟩
        · rw [if_pos h1, if_neg h2]
          refine ⟨?_, fun h0 => ?_⟩
          · simp only [List.reverse_cons, List.length_append, List.length_reverse,
              List.length_cons, List.length_nil]
            omega
          · dsimp only at h0 ⊢
            simp only [List.reverse_cons, List.length_append, List.length_reverse,
              List.length_cons, List.length_nil]
            omega
      · rw [if_neg h1]
        refine ⟨?_, fun h0 => ?_⟩
        · simp only [List.length_reverse]
          omega
        · dsimp only at h0 ⊢
          simp only [List.length_reverse]
          omega

/-- `Tokenize` never produces more than `max_tokens` tokens. -/
theorem tokenize_length (line : Str) (n : Int) :
    (Tokenize line n).1.length ≤ n.toNat := by
  unfold Tokenize
  rcases hst : strtokStep wsDelims line with ⟨tok, rest⟩
  match tok with
  | none =>
    have hrest : rest = [] := by
      have h3 := strtokStep_none wsDelims line (by rw [hst])
      rw [hst] at h3
      exact h3
    dsimp only
    simp only [hrest, tokenizeLoop]
    have hnl : strtokStep nlDelims [] = (none, []) := rfl
    by_cases h0 : n = (0 : Int)
    · simp [h0, hnl]
    · simp [if_neg h0, hnl]
  | some t =>
    dsimp only
    have hb := tokenizeLoop_length (n.toNat + 1) n (some t) rest []
      (by omega) (fun h => by cases h)
    rcases hres : tokenizeLoop (n.toNat + 1) n (some t) rest [] with ⟨toks, rest2, rem⟩
    rw [hres] at hb
    dsimp only
    simp only [List.length_nil, Nat.cast_zero, zero_add] at hb
    by_cases h0 : rem = 0
    · rw [if_pos h0]
      have h1 := hb.2 h0
      cases (strtokStep nlDelims rest2).1 with
      | none =>
        dsimp only
        omega
      | some t2 =>
        dsimp only
        simp only [List.length_append, List.length_cons, List.length_nil]
        omega
    · rw [if_neg h0]
      have h1 := hb.1
      omega

/-- Processing a concatenation of line lists runs the first part, then (if it
did not abort) the second from the resulting state. -/
theorem runLines_append (l1 : List Str) :
    ∀ (l2 : List Str) (s : LoadState),
    runLines s (l1 ++ l2) =
      match runLines s l1 with
      | none => none
      | some s2 => runLines s2 l2 := by
  induction l1 with
  | nil =>
    intro l2 s
    simp [runLines]
  | cons b bs ih =>
    intro l2 s
    simp only [List.cons_append, runLines]
    cases processLine s b with
    | none => rfl
    | some s2 => exact ih l2 s2

/-- A failed `RangeMap` store leaves the map unchanged. -/
theorem rmStore_fail {α : Type} (m : RangeMap α) (b s : Nat) (v : α)
    (h : (rmStore m b s v).1 = false) : (rmStore m b s v).2 = m := by
  by_cases hc : (m.any fun e => rmOverlaps b s e.base e.size) = true
  · simp [rmStore, hc]
  · simp [rmStore, hc] at h

/-- A failed `ContainedRangeMap` store leaves the map unchanged. -/
theorem crmStore_fail {α : Type} (m : CRMap α) (b s : Nat) (v : α)
    (h : (crmStore m b s v).1 = false) : (crmStore m b s v).2 = m := by
  by_cases hc : (m.any fun e =>
      rmOverlaps b s e.base e.size &&
      !rmContained b s e.base e.size &&
      !rmContained e.base e.size b s) = true
  · simp [crmStore, hc]
  · simp [crmStore, hc] at h

/-- Writing back the element already at an index leaves a list unchanged. -/
theorem set_getD_self {α : Type} :
    ∀ (l : List α) (i : Nat) (d : α), l.set i (l.getD i d) = l := by
  intro l
  induction l with
  | nil =>
    intro i d
    rfl
  | cons x xs ih =>
    intro i d
    cases i with
    | zero => simp [List.getD]
    | succ n =>
      simp only [List.getD_cons_succ, List.set_cons_succ, List.cons.injEq, true_and]
      exact ih n d

/-- If nothing in the first list matches, searching the concatenation
searches the second list. -/
theorem find?_none_append {α : Type} (p : α → Bool) :
    ∀ (l1 l2 : List α), l1.find? p = none → (l1 ++ l2).find? p = l2.find? p := by
  intro l1
  induction l1 with
  | nil =>
    intro l2 _
    rfl
  | cons x xs ih =>
    intro l2 h
    rw [List.find?_cons] at h
    cases hp : p x with
    | true =>
      rw [hp] at h
      cases h
    | false =>
      rw [hp] at h
      simp only [List.cons_append, List.find?_cons, hp]
      exact ih l2 h

/-- The structural format errors of spec section 7, per record kind, as a
predicate on the read-loop state (`cur_func`) and the buffer: a `STACK`
record with too few tokens, a non-`WIN` platform or an out-of-range type; a
`FUNC` record with too few tokens; a line record with too few tokens, a
non-positive line number, or no current function.  A `FILE` record is never
a structural error (its parser recovers silently). -/
def structuralError (cur : Option Nat) (buffer : Str) : Bool :=
  if buffer.take 5 = ("FILE ").toList then false
  else if buffer.take 6 = ("STACK ").toList then
    !(Tokenize (buffer.drop 6) 11).2 ||
    decide ((Tokenize (buffer.drop 6) 11).1.getD 0 [] ≠ ("WIN").toList) ||
    decide (strtol16 ((Tokenize (buffer.drop 6) 11).1.getD 1 []) < 0 ∨
      strtol16 ((Tokenize (buffer.drop 6) 11).1.getD 1 []) > (STACK_INFO_LAST : Int) - 1)
  else if buffer.take 5 = ("FUNC ").toList then
    !(Tokenize (buffer.drop 5) 3).2
  else
    cur.isNone || !(Tokenize buffer 4).2 ||
    decide (atoi ((Tokenize buffer 4).1.getD 2 []) ≤ 0)

/-- A structural format error makes the read-loop iteration abort. -/
theorem processLine_structuralError (s : LoadState) (buffer : Str)
    (h : structuralError s.cur buffer = true) :
    processLine s buffer = none := by
  unfold structuralError at h
  unfold processLine
  by_cases hf : buffer.take 5 = ("FILE ").toList
  · rw [if_pos hf] at h
    cases h
  · rw [if_neg hf] at h
    rw [if_neg hf]
    by_cases hs : buffer.take 6 = ("STACK ").toList
    · rw [if_pos hs] at h
      rw [if_pos hs]
      have hnone : ParseStackInfo s.mod buffer = none := by
        simp only [Bool.or_eq_true, Bool.not_eq_true', decide_eq_true_eq] at h
        simp only [ParseStackInfo]
        by_cases h1 : (Tokenize (buffer.drop 6) 11).2 = false
        · rw [if_pos h1]
        · rw [if_neg h1]
          by_cases h2 : (Tokenize (buffer.drop 6) 11).1.getD 0 [] = ("WIN").toList
          · have h3 : strtol16 ((Tokenize (buffer.drop 6) 11).1.getD 1 []) < 0 ∨
                strtol16 ((Tokenize (buffer.drop 6) 11).1.getD 1 [])
                  > (STACK_INFO_LAST : Int) - 1 := by
              rcases h with (h | h) | h
              · exact absurd h h1
              · exact absurd h2 h
              · exact h
            rw [if_neg (not_not_intro h2), if_pos h3]
          · rw [if_pos h2]
      rw [hnone]
    · rw [if_neg hs] at h
      rw [if_neg hs]
      by_cases hfn : buffer.take 5 = ("FUNC ").toList
      · rw [if_pos hfn] at h
        rw [if_pos hfn]
        have hnone : ParseFunction buffer = none := by
          simp only [Bool.not_eq_true'] at h
          unfold ParseFunction
          simp [h]
        rw [hnone]
      · rw [if_neg hfn] at h
        rw [if_neg hfn]
        simp only [Bool.or_eq_true, Bool.not_eq_true', decide_eq_true_eq,
          Option.isNone_iff_eq_none] at h
        rcases h with (h | h) | h
        · rw [h]
        · cases hc : s.cur with
          | none => rfl
          | some fid =>
            have hnone : ParseLine buffer = none := by
              simp only [ParseLine]
              rw [if_pos h]
            rw [hnone]
        · cases hc : s.cur with
          | none => rfl
          | some fid =>
            have hnone : ParseLine buffer = none := by
              simp only [ParseLine]
              by_cases h1 : (Tokenize buffer 4).2 = false
              · rw [if_pos h1]
              · rw [if_neg h1, if_pos h]
            rw [hnone]

/-- The second (frame-info) component of a lookup is the fixed-priority
probe of the three understood stack-info maps, independent of the function
and line lookups that follow it. -/
theorem lookupAddress_snd (m : ModuleData) (a : Nat) (frame : StackFrame) (w : Bool) :
    (LookupAddress m a frame w).2 =
      (if w then
        match crmRetrieve (stackInfoAt m STACK_INFO_FRAME_DATA) a with
        | some v => some v
        | none =>
          match crmRetrieve (stackInfoAt m STACK_INFO_FPO) a with
          | some v => some v
          | none => crmRetrieve (stackInfoAt m STACK_INFO_STANDARD) a
      else none) := by
  unfold LookupAddress
  cases rmRetrieve m.functions a with
  | none => rfl
  | some fid =>
    dsimp only
    cases m.funcs.get? fid with
    | none => rfl
    | some f =>
      dsimp only
      cases rmRetrieve f.lines a with
      | none => rfl
      | some l => dsimp only

/-- First non-`none` entry of a list of options. -/
def firstSome {α : Type} : List (Option α) → Option α
  | [] => none
  | o :: os =>
    match o with
    | some v => some v
    | none => firstSome os

/-- If a name is not registered, its search in the module map fails. -/
theorem lookupModule_eq_none (r : Resolver) (name : Str)
    (h : HasModule r name = false) :
    r.find? (fun p => decide (p.1 = name)) = none := by
  unfold HasModule lookupModule at h
  cases hf : r.find? (fun p => decide (p.1 = name)) with
  | none => rfl
  | some p =>
    rw [hf] at h
    simp at h

/-! ## Concrete test data -/

/-- The spec section 8 demo symbol file, as the four `fgets` buffers. -/
def demoFile : List Str :=
  [ ("FILE 0 a.c\n").toList,
    ("FUNC 1000 10 foo\n").toList,
    ("1000 5 42 0\n").toList,
    ("STACK WIN 4 1000 10 0 0 0 0 0 0 prog\n").toList ]

/-- A fresh frame with empty output fields. -/
def frame0 : StackFrame :=
  { module_name := ("m").toList, module_base := 0, instruction := 0,
    function_name := [], source_file_name := [], source_line := 0 }

/-- Looking up `0x1000` with frame-info output requested in the module built
from `demoFile`. -/
def demoLookup : StackFrame × Option StackFrameInfo :=
  match (LoadMap (("m").toList) (some demoFile)).1 with
  | none => (frame0, none)
  | some m => LookupAddress m 4096 frame0 true

/-! ## The claims -/

/-- C1: loading the symbol file `FILE 0 a.c` / `FUNC 1000 10 foo` /
`1000 5 42 0` / `STACK WIN 4 1000 10 0 0 0 0 0 0 prog` succeeds, and a
lookup of module-relative address 0x1000 with frame-info output requested
sets function_name to "foo", source_file_name to "a.c", source_line to 42,
and fills a valid StackFrameInfo whose unwind_program is "prog". -/
theorem c1_load_and_lookup :
    (LoadModule [] (("m").toList) (some demoFile)).1 = true ∧
    (LoadMap (("m").toList) (some demoFile)).1.isSome = true ∧
    demoLookup.1.function_name = ("foo").toList ∧
    demoLookup.1.source_file_name = ("a.c").toList ∧
    demoLookup.1.source_line = 42 ∧
    demoLookup.2.isSome = true ∧
    demoLookup.2.map (fun i => i.unwind_program) = some (("prog").toList) := by
  decide

/-- C2: `LoadModule` fails without mutation when the name is registered; on
parse failure it returns false and the module is never registered (the
resolver is unchanged, so `HasModule` stays false); only on parse success is
the module registered and true returned. -/
theorem c2_load_module (r : Resolver) (name : Str) (file : Option (List Str)) :
    (HasModule r name = true → LoadModule r name file = (false, r)) ∧
    (HasModule r name = false → (LoadMap name file).1 = none →
      LoadModule r name file = (false, r) ∧
      HasModule (LoadModule r name file).2 name = false) ∧
    (HasModule r name = false → ∀ m : ModuleData, (LoadMap name file).1 = some m →
      LoadModule r name file = (true, r ++ [(name, m)]) ∧
      HasModule (LoadModule r name file).2 name = true) := by
  refine ⟨?_, ?_, ?_⟩
  · intro h
    unfold HasModule at h
    unfold LoadModule
    rw [if_pos h]
  · intro h1 h2
    have hcond : ¬((lookupModule r name).isSome = true) := by
      unfold HasModule at h1
      simp [h1]
    have heq : LoadModule r name file = (false, r) := by
      unfold LoadModule
      rw [if_neg hcond, h2]
    exact ⟨heq, by rw [heq]; exact h1⟩
  · intro h1 m h3
    have hcond : ¬((lookupModule r name).isSome = true) := by
      unfold HasModule at h1
      simp [h1]
    have heq : LoadModule r name file = (true, r ++ [(name, m)]) := by
      unfold LoadModule
      rw [if_neg hcond, h3]
    refine ⟨heq, ?_⟩
    rw [heq]
    unfold HasModule lookupModule
    rw [find?_none_append _ r [(name, m)] (lookupModule_eq_none r name h1)]
    simp

/-- Witness for C2: a duplicate name is refused and leaves the resolver
unchanged, and a failing parse (line record before any FUNC) is not
registered. -/
theorem c2_witness :
    (LoadModule [((("m").toList), emptyModule (("m").toList))] (("m").toList) none
      = (false, [((("m").toList), emptyModule (("m").toList))])) ∧
    (LoadModule [] (("m").toList) (some [ ("1000 5 42 0\n").toList ]) = (false, []) ∧
      HasModule (LoadModule [] (("m").toList)
        (some [ ("1000 5 42 0\n").toList ])).2 (("m").toList) = false) :=
  ⟨(c2_load_module [((("m").toList), emptyModule (("m").toList))] (("m").toList) none).1
      (by decide),
   (c2_load_module [] (("m").toList) (some [ ("1000 5 42 0\n").toList ])).2.1
      (by decide) (by decide)⟩

/-- C3, counterexample to the claim as stated: a `FILE` record line with too
few tokens for its record kind (its 2-token split fails) does NOT abort the
load — the load succeeds. -/
theorem c3_counterexample :
    (Tokenize ((("FILE 0\n").toList).drop 5) 2).2 = false ∧
    (LoadMap (("m").toList) (some [ ("FILE 0\n").toList ])).1.isSome = true := by
  decide

/-- C3 (amended): every structural format error in a STACK, FUNC or line
record — wrong token count, non-`WIN` platform, out-of-range stack type,
non-positive line number, or a line record with no current function —
aborts the entire load immediately; a FILE record, by contrast, never
aborts (its parser recovers silently, whatever its token count). -/
theorem c3_structural_abort :
    (∀ (name : Str) (pre post : List Str) (s : LoadState) (buffer : Str),
      runLines { mod := emptyModule name, cur := none } pre = some s →
      structuralError s.cur buffer = true →
      (LoadMap name (some (pre ++ buffer :: post))).1 = none) ∧
    (∀ (s : LoadState) (buffer : Str), buffer.take 5 = ("FILE ").toList →
      processLine s buffer = some { s with mod := ParseFile s.mod buffer }) := by
  constructor
  · intro name pre post s buffer h1 h2
    have habort : runLines { mod := emptyModule name, cur := none }
        (pre ++ buffer :: post) = none := by
      rw [runLines_append pre (buffer :: post) _, h1]
      dsimp only
      simp only [runLines]
      rw [processLine_structuralError s buffer h2]
    unfold LoadMap
    dsimp only
    rw [habort]
  · intro s buffer h
    unfold processLine
    rw [if_pos h]

/-- Witness for C3 (amended): a line record appearing first (no current
function) aborts a load whose remainder is well-formed, and a FILE line is
processed without aborting. -/
theorem c3_witness :
    (LoadMap (("m").toList)
      (some ([] ++ ("1000 5 42 0\n").toList :: [ ("FUNC 1000 10 foo\n").toList ]))).1
        = none ∧
    processLine { mod := emptyModule (("m").toList), cur := none } (("FILE 0\n").toList)
      = some { mod := ParseFile (emptyModule (("m").toList)) (("FILE 0\n").toList),
               cur := none } :=
  ⟨c3_structural_abort.1 (("m").toList) [] [ ("FUNC 1000 10 foo\n").toList ]
      { mod := emptyModule (("m").toList), cur := none } (("1000 5 42 0\n").toList)
      (by decide) (by decide),
   c3_structural_abort.2 { mod := emptyModule (("m").toList), cur := none }
      (("FILE 0\n").toList) (by decide)⟩

/-- A one-record symbol file that loads successfully. -/
def okFile : List Str := [ ("FUNC 1000 10 foo\n").toList ]

/-- C9: the file handle is NOT released on the structural-abort paths of
`LoadMap` (the in-loop `return false` statements skip `fclose`), contrary to
the claim; it is released on the success path, and on `fopen` failure there
is no handle to release. -/
theorem c9_handle_leak :
    LoadMap (("m").toList) (some [ ("1000 5 42 0\n").toList ]) = (none, false) ∧
    (LoadMap (("m").toList) (some okFile)).2 = true ∧
    LoadMap (("m").toList) none = (none, true) := by
  decide

/-- C4: data-quality anomalies are recovered locally and never abort the
load.  (1) A `FUNC` record whose range store fails (overlap) is dropped from
the function index, yet still becomes the current function, appended to the
arena.  (2) A line record attaches to the current function object in the
arena — whether or not that function is indexed — and loading continues.
(3) A `STACK WIN` record whose contained-range store fails is dropped
entirely, leaving the state unchanged, and loading continues. -/
theorem c4_anomalies_recovered :
    (∀ (s : LoadState) (buffer : Str) (f : Function),
      buffer.take 5 = ("FUNC ").toList →
      ParseFunction buffer = some f →
      (rmStore s.mod.functions f.address f.size s.mod.funcs.length).1 = false →
      processLine s buffer =
        some { mod := { s.mod with funcs := s.mod.funcs ++ [f] },
               cur := some s.mod.funcs.length }) ∧
    (∀ (s : LoadState) (buffer : Str) (fid : Nat) (l : Line),
      buffer.take 5 ≠ ("FILE ").toList →
      buffer.take 6 ≠ ("STACK ").toList →
      buffer.take 5 ≠ ("FUNC ").toList →
      s.cur = some fid →
      ParseLine buffer = some l →
      processLine s buffer =
        some { s with mod := { s.mod with
          funcs := updateAt s.mod.funcs fid
            (fun f => { f with lines := (rmStore f.lines l.address l.size l).2 }) } }) ∧
    (∀ (s : LoadState) (buffer : Str),
      buffer.take 6 = ("STACK ").toList →
      (Tokenize (buffer.drop 6) 11).2 = true →
      (Tokenize (buffer.drop 6) 11).1.getD 0 [] = ("WIN").toList →
      0 ≤ strtol16 ((Tokenize (buffer.drop 6) 11).1.getD 1 []) →
      strtol16 ((Tokenize (buffer.drop 6) 11).1.getD 1 []) ≤ (STACK_INFO_LAST : Int) - 1 →
      (crmStore
        (s.mod.stackInfo.getD (strtol16 ((Tokenize (buffer.drop 6) 11).1.getD 1 [])).toNat [])
        (strtoull16 ((Tokenize (buffer.drop 6) 11).1.getD 2 []))
        (strtoull16 ((Tokenize (buffer.drop 6) 11).1.getD 3 []))
        (stackInfoRecord (Tokenize (buffer.drop 6) 11).1)).1 = false →
      processLine s buffer = some s) := by
  refine ⟨?_, ?_, ?_⟩
  · intro s buffer f hfun hpf hfail
    have hne1 : ¬(buffer.take 5 = ("FILE ").toList) := by
      intro hfi
      rw [hfun] at hfi
      exact absurd hfi (by decide)
    have hne2 : ¬(buffer.take 6 = ("STACK ").toList) := by
      intro hst
      have h5 := congrArg (List.take 5) hst
      rw [List.take_take] at h5
      norm_num at h5
      rw [hfun] at h5
      exact absurd h5 (by decide)
    unfold processLine
    rw [if_neg hne1, if_neg hne2, if_pos hfun, hpf]
    dsimp only
    rw [rmStore_fail s.mod.functions f.address f.size s.mod.funcs.length hfail]
  · intro s buffer fid l hne1 hne2 hne3 hcur hpl
    unfold processLine
    rw [if_neg hne1, if_neg hne2, if_neg hne3, hcur]
    dsimp only
    rw [hpl]
  · intro s buffer hst htk hwin hlo hhi hcrm
    have hne1 : ¬(buffer.take 5 = ("FILE ").toList) := by
      intro hfi
      have h5 := congrArg (List.take 5) hst
      rw [List.take_take] at h5
      norm_num at h5
      rw [hfi] at h5
      exact absurd h5 (by decide)
    have hparse : ParseStackInfo s.mod buffer = some s.mod := by
      simp only [ParseStackInfo]
      rw [if_neg (by simp [htk]), if_neg (not_not_intro hwin),
        if_neg (by push_neg; exact ⟨hlo, hhi⟩)]
      rw [crmStore_fail _ _ _ _ hcrm, set_getD_self]
    unfold processLine
    rw [if_neg hne1, if_pos hst, hparse]

/-- The state after loading `FUNC 1000 10 foo`: one indexed function. -/
def c4state : LoadState :=
  (runLines { mod := emptyModule (("m").toList), cur := none }
    [ ("FUNC 1000 10 foo\n").toList ]).getD { mod := emptyModule [], cur := none }

/-- The overlapping second function of the C4 witness. -/
def c4fun2 : Function :=
  { name := ("bar").toList, address := 4104, size := 16, lines := [] }

/-- The state after additionally reading the overlapping `FUNC 1008 10 bar`:
`bar` is current but unindexed. -/
def c4state2 : LoadState :=
  (processLine c4state (("FUNC 1008 10 bar\n").toList)).getD
    { mod := emptyModule [], cur := none }

/-- The state after loading one `STACK WIN 4` record covering 0x1000..0x1010. -/
def c4stack : LoadState :=
  (runLines { mod := emptyModule (("m").toList), cur := none }
    [ ("STACK WIN 4 1000 10 0 0 0 0 0 0 prog\n").toList ]).getD
    { mod := emptyModule [], cur := none }

/-- Witness for C4: the overlapping `FUNC 1008 10 bar` is dropped from the
index but becomes current; a line record then attaches to it; and a
partially-overlapping `STACK WIN` record leaves the state unchanged. -/
theorem c4_witness :
    (processLine c4state (("FUNC 1008 10 bar\n").toList) =
      some { mod := { c4state.mod with funcs := c4state.mod.funcs ++ [c4fun2] },
             cur := some c4state.mod.funcs.length }) ∧
    (processLine c4state2 (("1008 4 7 0\n").toList) =
      some { c4state2 with mod := { c4state2.mod with
        funcs := updateAt c4state2.mod.funcs 1
          (fun f => { f with lines := (rmStore f.lines 4104 4
            { address := 4104, size := 4, source_file_id := 0, line := 7 }).2 }) } }) ∧
    (processLine c4stack (("STACK WIN 4 1008 20 0 0 0 0 0 0 p\n").toList) = some c4stack) :=
  ⟨c4_anomalies_recovered.1 c4state (("FUNC 1008 10 bar\n").toList) c4fun2
      (by decide) (by decide) (by decide),
   c4_anomalies_recovered.2.1 c4state2 (("1008 4 7 0\n").toList) 1
      { address := 4104, size := 4, source_file_id := 0, line := 7 }
      (by decide) (by decide) (by decide) (by decide) (by decide),
   c4_anomalies_recovered.2.2 c4stack (("STACK WIN 4 1008 20 0 0 0 0 0 0 p\n").toList)
      (by decide) (by decide) (by decide) (by decide) (by decide) (by decide)⟩

/-- C5: with frame-info output requested, the three understood stack-info
maps are probed in the fixed order frame-data, FPO, standard, taking the
first non-empty result; and the probe's outcome depends only on the
stack-info maps — in particular it happens even when the address lies in no
known function. -/
theorem c5_probe_priority (m : ModuleData) (a : Nat) (frame : StackFrame) :
    ((LookupAddress m a frame true).2 =
      firstSome [crmRetrieve (stackInfoAt m STACK_INFO_FRAME_DATA) a,
                 crmRetrieve (stackInfoAt m STACK_INFO_FPO) a,
                 crmRetrieve (stackInfoAt m STACK_INFO_STANDARD) a]) ∧
    (∀ m2 : ModuleData, m2.stackInfo = m.stackInfo →
      (LookupAddress m2 a frame true).2 = (LookupAddress m a frame true).2) := by
  constructor
  · rw [lookupAddress_snd]
    rw [if_pos rfl]
    cases crmRetrieve (stackInfoAt m STACK_INFO_FRAME_DATA) a with
    | some v => simp [firstSome]
    | none =>
      cases crmRetrieve (stackInfoAt m STACK_INFO_FPO) a with
      | some v => simp [firstSome]
      | none =>
        cases crmRetrieve (stackInfoAt m STACK_INFO_STANDARD) a with
        | some v => simp [firstSome]
        | none => simp [firstSome]
  · intro m2 h
    rw [lookupAddress_snd, lookupAddress_snd]
    unfold stackInfoAt
    rw [h]

/-- A module with a function table but empty stack-info maps. -/
def c5mod : ModuleData :=
  { emptyModule [] with functions := [ { base := 0, size := 16, val := 0 } ] }

/-- Witness for C5: the frame-info probe result is unchanged by the function
table (same stack-info maps, different functions). -/
theorem c5_witness :
    (LookupAddress c5mod 0 frame0 true).2 = (LookupAddress (emptyModule []) 0 frame0 true).2 :=
  (c5_probe_priority (emptyModule []) 0 frame0).2 c5mod (by decide)

/-- C6: when the lookup resolves a function and a line whose file id is
absent from the file table, source_line is still set from the line record
while source_file_name is left untouched (and function_name is set). -/
theorem c6_unknown_file_id (m : ModuleData) (a : Nat) (frame : StackFrame) (w : Bool)
    (fid : Nat) (f : Function) (l : Line)
    (h1 : rmRetrieve m.functions a = some fid)
    (h2 : m.funcs.get? fid = some f)
    (h3 : rmRetrieve f.lines a = some l)
    (h4 : lookupFile m.files l.source_file_id = none) :
    (LookupAddress m a frame w).1.source_line = l.line ∧
    (LookupAddress m a frame w).1.source_file_name = frame.source_file_name ∧
    (LookupAddress m a frame w).1.function_name = f.name := by
  unfold LookupAddress
  rw [h1]
  dsimp only
  rw [h2]
  dsimp only
  rw [h3]
  dsimp only
  rw [h4]
  exact ⟨rfl, rfl, rfl⟩

/-- A symbol file whose line record cites file id 7, never declared. -/
def c6file : List Str :=
  [ ("FUNC 1000 10 foo\n").toList, ("1000 5 42 7\n").toList ]

/-- The module built from `c6file`. -/
def c6mod : ModuleData :=
  ((LoadMap (("m").toList) (some c6file)).1).getD (emptyModule [])

/-- The line record of `c6file` as parsed, citing the undeclared file id 7. -/
def c6line : Line := { address := 4096, size := 5, source_file_id := 7, line := 42 }

/-- The function of `c6file` as built by the loader. -/
def c6fun : Function :=
  { name := ("foo").toList, address := 4096, size := 16,
    lines := [ { base := 4096, size := 5, val := c6line } ] }

/-- Witness for C6: address 0x1000 in `c6mod` resolves line 42 with the
file name left untouched. -/
theorem c6_witness :
    (LookupAddress c6mod 4096 frame0 true).1.source_line = 42 ∧
    (LookupAddress c6mod 4096 frame0 true).1.source_file_name = frame0.source_file_name ∧
    (LookupAddress c6mod 4096 frame0 true).1.function_name = ("foo").toList :=
  c6_unknown_file_id c6mod 4096 frame0 true 0 c6fun c6line
    (by decide) (by decide) (by decide) (by decide)

/-- C7: tokenization splits on runs of space/CR/LF into at most N tokens,
and once N-1 tokens are consumed the remainder of the line, trimmed of the
trailing newline, becomes the final token verbatim — embedded spaces
included. -/
theorem c7_tokenize :
    (∀ (line : Str) (n : Int), (Tokenize line n).1.length ≤ n.toNat) ∧
    (∀ (ts : List Str) (rest : Str) (n : Int),
      n = (ts.length : Int) + 1 →
      ts ≠ [] →
      (∀ u ∈ ts, u ≠ [] ∧ ∀ c ∈ u, wsDelims.contains c = false) →
      rest ≠ [] →
      (∀ c ∈ rest, nlDelims.contains c = false) →
      Tokenize (joinTokens ts ++ rest ++ [ '\n' ]) n = (ts ++ [rest], true)) := by
  refine ⟨tokenize_length, ?_⟩
  intro ts rest n hn hts hgood hr1 hr2
  rw [hn]
  exact tokenize_join ts rest hts hgood hr1 hr2

/-- Witness for C7: a `STACK WIN`-shaped line whose trailing program string
contains embedded spaces tokenizes into 11 tokens, the last being the
program string kept whole. -/
theorem c7_witness :
    Tokenize (joinTokens [ ("WIN").toList, ("4").toList, ("1000").toList,
        ("10").toList, ("0").toList, ("0").toList, ("0").toList, ("0").toList,
        ("0").toList, ("0").toList ] ++ ("x y z").toList ++ [ '\n' ]) 11
      = ([ ("WIN").toList, ("4").toList, ("1000").toList, ("10").toList,
          ("0").toList, ("0").toList, ("0").toList, ("0").toList, ("0").toList,
          ("0").toList ] ++ [ ("x y z").toList ], true) :=
  c7_tokenize.2 [ ("WIN").toList, ("4").toList, ("1000").toList, ("10").toList,
      ("0").toList, ("0").toList, ("0").toList, ("0").toList, ("0").toList,
      ("0").toList ] (("x y z").toList) 11
    (by decide) (by decide) (by decide) (by decide) (by decide)

/-- C8: a FILE record's id must be a non-negative `atoi` value; a new id
records the rest of the line verbatim as the filename; a duplicate id never
overwrites; and a malformed FILE line (failed 2-token split or negative id)
is silently skipped, never aborting the load. -/
theorem c8_parse_file :
    (∀ (m : ModuleData) (idTok rest : Str),
      idTok ≠ [] → (∀ c ∈ idTok, wsDelims.contains c = false) →
      rest ≠ [] → (∀ c ∈ rest, nlDelims.contains c = false) →
      (atoi idTok < 0 →
        ParseFile m (("FILE ").toList ++ (idTok ++ ' ' :: (rest ++ [ '\n' ]))) = m) ∧
      (0 ≤ atoi idTok → lookupFile m.files (atoi idTok) = none →
        ParseFile m (("FILE ").toList ++ (idTok ++ ' ' :: (rest ++ [ '\n' ])))
          = { m with files := (atoi idTok, rest) :: m.files }) ∧
      ((lookupFile m.files (atoi idTok)).isSome = true →
        ParseFile m (("FILE ").toList ++ (idTok ++ ' ' :: (rest ++ [ '\n' ]))) = m)) ∧
    (∀ (m : ModuleData) (buffer : Str),
      (Tokenize (buffer.drop 5) 2).2 = false → ParseFile m buffer = m) ∧
    (∀ (s : LoadState) (buffer : Str), buffer.take 5 = ("FILE ").toList →
      processLine s buffer = some { s with mod := ParseFile s.mod buffer }) := by
  refine ⟨?_, ?_, ?_⟩
  · intro m idTok rest hid1 hid2 hr1 hr2
    have hdrop : ((("FILE ").toList ++ (idTok ++ ' ' :: (rest ++ [ '\n' ])))).drop 5
        = idTok ++ ' ' :: (rest ++ [ '\n' ]) := by
      have hlen : (("FILE ").toList).length = 5 := rfl
      rw [← hlen]
      exact List.drop_left _ _
    have hjoin : joinTokens [idTok] ++ rest ++ [ '\n' ]
        = idTok ++ ' ' :: (rest ++ [ '\n' ]) := by
      simp [joinTokens]
    have htok : Tokenize (idTok ++ ' ' :: (rest ++ [ '\n' ])) 2 = ([idTok, rest], true) := by
      have hj := tokenize_join [idTok] rest (by simp)
        (by
          intro u hu
          rw [List.mem_singleton] at hu
          subst hu
          exact ⟨hid1, hid2⟩) hr1 hr2
      rw [hjoin] at hj
      norm_num at hj
      exact hj
    refine ⟨?_, ?_, ?_⟩
    · intro hneg
      simp only [ParseFile]
      rw [hdrop, htok]
      dsimp only
      rw [if_neg (by simp)]
      simp only [List.getD_cons_zero, List.getD_cons_succ]
      rw [if_pos hneg]
    · intro h0 hnone
      simp only [ParseFile]
      rw [hdrop, htok]
      dsimp only
      rw [if_neg (by simp)]
      simp only [List.getD_cons_zero, List.getD_cons_succ]
      rw [if_neg (not_lt.mpr h0)]
      unfold filesInsert
      rw [hnone]
    · intro hsome
      simp only [ParseFile]
      rw [hdrop, htok]
      dsimp only
      rw [if_neg (by simp)]
      simp only [List.getD_cons_zero, List.getD_cons_succ]
      by_cases hneg : atoi idTok < 0
      · rw [if_pos hneg]
      · rw [if_neg hneg]
        unfold filesInsert
        obtain ⟨v, hv⟩ := Option.isSome_iff_exists.mp hsome
        rw [hv]
  · intro m buffer h
    simp only [ParseFile]
    rw [if_pos h]
  · intro s buffer h
    unfold processLine
    rw [if_pos h]

/-- Witness for C8: `FILE 0 a.c` on an empty module records filename "a.c"
under id 0; re-recording id 0 with another name leaves "a.c" in place. -/
theorem c8_witness :
    (ParseFile (emptyModule []) (("FILE ").toList ++ ((("0").toList) ++ ' ' ::
        ((("a.c").toList) ++ [ '\n' ])))
      = { emptyModule [] with files := [(0, ("a.c").toList)] }) ∧
    (ParseFile { emptyModule [] with files := [(0, ("a.c").toList)] }
        (("FILE ").toList ++ ((("0").toList) ++ ' ' :: ((("b.c").toList) ++ [ '\n' ])))
      = { emptyModule [] with files := [(0, ("a.c").toList)] }) :=
  ⟨((c8_parse_file.1 (emptyModule []) (("0").toList) (("a.c").toList)
      (by decide) (by decide) (by decide) (by decide)).2.1 (by decide) (by decide)),
   ((c8_parse_file.1 { emptyModule [] with files := [(0, ("a.c").toList)] }
      (("0").toList) (("b.c").toList)
      (by decide) (by decide) (by decide) (by decide)).2.2 (by decide))⟩

/-- C10: for a registered module, the module-relative address is the
unsigned 64-bit difference of instruction and module base; when the
instruction is below the base the subtraction wraps modulo `2 ^ 64` and the
lookup proceeds with the wrapped address. -/
theorem c10_wrapped_subtraction (r : Resolver) (frame : StackFrame) (w : Bool)
    (m : ModuleData)
    (h0 : lookupModule r frame.module_name = some m)
    (h1 : frame.instruction < frame.module_base)
    (h2 : frame.module_base < 2 ^ 64) :
    FillSourceLineInfo r frame w
      = LookupAddress m (frame.instruction + 2 ^ 64 - frame.module_base) frame w := by
  unfold FillSourceLineInfo
  rw [h0]
  dsimp only
  have hmod : frame.module_base % 2 ^ 64 = frame.module_base := Nat.mod_eq_of_lt h2
  have hlt : frame.instruction + (2 ^ 64 - frame.module_base) < 2 ^ 64 := by omega
  unfold u64sub
  rw [hmod, Nat.mod_eq_of_lt hlt]
  congr 1
  omega

/-- A symbol file whose one function sits at the top of the address space. -/
def wrapFile : List Str := [ ("FUNC ffffffffffffffff 1 wrapfn\n").toList ]

/-- The module built from `wrapFile`. -/
def wrapModule : ModuleData :=
  ((LoadMap (("w").toList) (some wrapFile)).1).getD (emptyModule [])

/-- A resolver holding `wrapModule` under the name "w". -/
def wrapResolver : Resolver := (LoadModule [] (("w").toList) (some wrapFile)).2

/-- A frame whose instruction address is below its module base. -/
def wrapFrame : StackFrame :=
  { module_name := ("w").toList, module_base := 1, instruction := 0,
    function_name := [], source_file_name := [], source_line := 0 }

/-- Witness for C10: with instruction 0 and base 1 the lookup runs at the
wrapped address `2 ^ 64 - 1`, where `wrapModule`'s function lives. -/
theorem c10_witness :
    FillSourceLineInfo wrapResolver wrapFrame true
      = LookupAddress wrapModule (0 + 2 ^ 64 - 1) wrapFrame true :=
  c10_wrapped_subtraction wrapResolver wrapFrame true wrapModule
    (by decide) (by decide) (by decide)

end GoogleAirbag
